import Mathlib

/-!
Formal model of the Computational Gut Decision System
(`first_gut.py` / `simple_game_gut.py`).

Energies are exact rationals standing in for the floating-point reals of the
source.  The numpy noise matrix `random_matrix` is an explicit function
argument of the simulation; the seeded generator pipeline
(`np.random.seed` followed by `np.random.normal`) is modelled in
`simulate_full`, with the hash and the sampler abstracted as parameters.
-/

/-- The five numeric parameters of `simulate_decision` together with the
scenario count (`scenarios=1000` by default at the call sites). -/
structure Params where
  initial_energy : ℚ
  cost_frac : ℚ
  benefit_frac : ℚ
  risk_frac : ℚ
  horizon : ℕ
  scenarios : ℕ
  deriving DecidableEq

/-- `base_decay = 0.05`: baseline fractional energy decay per time step. -/
def base_decay : ℚ := 0.05

/-- `cost = initial_energy * cost_frac`: resource cost if the action is taken. -/
def cost (p : Params) : ℚ := p.initial_energy * p.cost_frac

/-- `effective_decay = max(0.0, base_decay * (1 - benefit_frac))`. -/
def effective_decay (p : Params) : ℚ := max 0 (base_decay * (1 - p.benefit_frac))

/-- `rand_std = 0.1 * initial_energy * risk_frac`. -/
def rand_std (p : Params) : ℚ := 0.1 * p.initial_energy * p.risk_frac

/-- One scenario's simulation state: the entries `E[i]` and `alive[i]` of the
two parallel arrays in `run_scenarios`. -/
structure Traj where
  energy : ℚ
  alive : Bool
  deriving DecidableEq

/-- Initial state of every scenario: `E = initial_energy`, `alive = True`;
if the decision is YES, `E -= cost` and any scenario with `E <= 0` is marked
dead with its energy clamped to `0.0` (lines 31-42 of `first_gut.py`). -/
def init_traj (p : Params) (decision : Bool) : Traj :=
  if decision then
    if p.initial_energy - cost p ≤ 0 then ⟨0, false⟩
    else ⟨p.initial_energy - cost p, true⟩
  else ⟨p.initial_energy, true⟩

/-- Decay step `E[alive] *= (1 - decay_rate)` seen by one scenario:
a dead scenario keeps its energy. -/
def decay_energy (decay_rate : ℚ) (s : Traj) : ℚ :=
  if s.alive then s.energy * (1 - decay_rate) else s.energy

/-- Energy after the decay step and the noise step
`if rand_std > 0: E[alive] += random_matrix[alive, t]` for one scenario
whose matrix entry at this step is `n`. -/
def noisy_energy (decay_rate rstd n : ℚ) (s : Traj) : ℚ :=
  if s.alive then
    (if 0 < rstd then decay_energy decay_rate s + n else decay_energy decay_rate s)
  else decay_energy decay_rate s

/-- One loop iteration (lines 50-58) seen by one scenario: decay, noise, then
`newly_dead = (E <= 0) & alive` gets `alive = False` and `E = 0.0`. -/
def step_traj (decay_rate rstd n : ℚ) (s : Traj) : Traj :=
  if s.alive ∧ noisy_energy decay_rate rstd n s ≤ 0 then ⟨0, false⟩
  else ⟨noisy_energy decay_rate rstd n s, s.alive⟩

/-- One loop iteration over the whole ensemble, including the early exit
`if not np.any(alive): break`: once no scenario with index below `scenarios`
is alive, the state never changes again, which is exactly what `break` does. -/
def step_all (decay_rate rstd : ℚ) (scenarios : ℕ) (noise_row : ℕ → ℚ)
    (E : ℕ → Traj) : ℕ → Traj :=
  if (List.range scenarios).any (fun i => (E i).alive) then
    fun i => step_traj decay_rate rstd (noise_row i) (E i)
  else E

/-- Ensemble state after the first `t` iterations of `for t in range(horizon)`
in the run with the given decision, where `decay_rate` is `effective_decay`
for YES and `base_decay` for NO. -/
def states_after (p : Params) (random_matrix : ℕ → ℕ → ℚ) (decision : Bool)
    (t : ℕ) : ℕ → Traj :=
  (List.range t).foldl
    (fun E u =>
      step_all (if decision then effective_decay p else base_decay) (rand_std p)
        p.scenarios (fun i => random_matrix i u) E)
    (fun _ => init_traj p decision)

/-- `survival_rate = np.mean(E > 0)`: the fraction of scenarios that ended
with energy strictly greater than zero. -/
def survival_rate (scenarios : ℕ) (E : ℕ → Traj) : ℚ :=
  (((Finset.range scenarios).filter (fun i => 0 < (E i).energy)).card : ℚ) /
    (scenarios : ℚ)

/-- `avg_final_energy = np.mean(E)`: average final energy over all scenarios,
dead scenarios contributing their clamped `0.0`. -/
def avg_final_energy (scenarios : ℕ) (E : ℕ → Traj) : ℚ :=
  (∑ i ∈ Finset.range scenarios, (E i).energy) / (scenarios : ℚ)

/-- `run_scenarios(decision)`: run the full horizon and reduce to
`(survival_rate, avg_final_energy)`. -/
def run_scenarios (p : Params) (random_matrix : ℕ → ℕ → ℚ) (decision : Bool) :
    ℚ × ℚ :=
  let Efin := states_after p random_matrix decision p.horizon
  (survival_rate p.scenarios Efin, avg_final_energy p.scenarios Efin)

/-- `simulate_decision` given the pre-generated noise matrix: run both
policies against the same matrix and return
`(surv_yes, surv_no, avg_yes, avg_no)` (lines 66-69). -/
def simulate_decision (p : Params) (random_matrix : ℕ → ℕ → ℚ) :
    ℚ × ℚ × ℚ × ℚ :=
  let yes := run_scenarios p random_matrix true
  let no := run_scenarios p random_matrix false
  (yes.1, no.1, yes.2, no.2)

/-- The caller-level decision rule (lines 95-103 of `first_gut.py`, identical
at lines 104-111 of `simple_game_gut.py`); `true` is the recommendation YES. -/
def gut_decision (surv_yes surv_no avg_yes avg_no : ℚ) : Bool :=
  if surv_yes - surv_no > 0.01 then true
  else if surv_no - surv_yes > 0.01 then false
  else if avg_yes ≥ avg_no then true else false

/-- Draw `n` values in sequence from a stateful sampler, threading the
generator state, as `np.random.normal(size=...)` consumes the seeded global
generator. -/
def draw_list {σ : Type} (next : σ → ℚ × σ) : ℕ → σ → List ℚ × σ
  | 0, st => ([], st)
  | n + 1, st =>
    let x := next st
    let rest := draw_list next n x.2
    (x.1 :: rest.1, rest.2)

/-- The `scenarios × horizon` matrix
`np.random.normal(loc=0, scale=rand_std, size=(scenarios, horizon))`,
drawn row-major from the current generator state. -/
def draw_matrix {σ : Type} (next : σ → ℚ × σ) (rows cols : ℕ) (st : σ) :
    (ℕ → ℕ → ℚ) × σ :=
  let d := draw_list next (rows * cols) st
  (fun i t => d.1.getD (i * cols + t) 0, d.2)

/-- Whole-invocation model of `simulate_decision`, lines 22-27 included.  The
global numpy generator state has abstract type `σ` and holds the value `st0`
when the function is entered; `np_seed` models `np.random.seed`, `next` models
one draw from the seeded generator, and `sha_mod` models
`int(hashlib.sha256(seed_key.encode()).hexdigest(), 16) % (2**32)` applied to
the key built from the five parameters in their fixed order (the scenario
count is not part of the key).  Returns the four scalars together with the
generator state left behind. -/
def simulate_full {σ : Type} (np_seed : ℕ → σ) (next : σ → ℚ × σ)
    (sha_mod : ℚ → ℚ → ℚ → ℚ → ℕ → ℕ) (p : Params) (st0 : σ) :
    (ℚ × ℚ × ℚ × ℚ) × σ :=
  let seed := sha_mod p.initial_energy p.cost_frac p.benefit_frac p.risk_frac p.horizon
  let st1 := np_seed seed
  let drawn := draw_matrix next p.scenarios p.horizon st1
  (simulate_decision p drawn.1, drawn.2)

/-- The amount the noise step adds to scenario `i` at iteration `t` of the run
with the given decision: energy after the decay-plus-noise stage minus energy
after the decay stage alone. -/
def noise_added (p : Params) (random_matrix : ℕ → ℕ → ℚ) (decision : Bool)
    (i t : ℕ) : ℚ :=
  noisy_energy (if decision then effective_decay p else base_decay) (rand_std p)
      (random_matrix i t) (states_after p random_matrix decision t i) -
    decay_energy (if decision then effective_decay p else base_decay)
      (states_after p random_matrix decision t i)

/-! ## Basic lemmas about the stepping functions -/

theorem states_after_zero (p : Params) (m : ℕ → ℕ → ℚ) (d : Bool) :
    states_after p m d 0 = fun _ => init_traj p d := rfl

theorem states_after_succ (p : Params) (m : ℕ → ℕ → ℚ) (d : Bool) (t : ℕ) :
    states_after p m d (t + 1) =
      step_all (if d then effective_decay p else base_decay) (rand_std p)
        p.scenarios (fun i => m i t) (states_after p m d t) := by
  unfold states_after
  rw [List.range_succ, List.foldl_append, List.foldl_cons, List.foldl_nil]

/-- A dead scenario is left untouched by one loop iteration. -/
theorem step_traj_of_dead (r rs n : ℚ) (s : Traj) (h : s.alive = false) :
    step_traj r rs n s = s := by
  obtain ⟨e, a⟩ := s
  cases a
  · simp [step_traj, noisy_energy, decay_energy]
  · cases h

/-- When the standard deviation is not positive, the loop body ignores the
noise value entirely. -/
theorem step_traj_noise_irrel (r rs n n' : ℚ) (s : Traj) (h : ¬ 0 < rs) :
    step_traj r rs n s = step_traj r rs n' s := by
  simp [step_traj, noisy_energy, h]

/-- The early exit: once every scenario with index below `scenarios` is dead,
one loop iteration changes nothing. -/
theorem step_all_of_all_dead (r rs : ℚ) (sc : ℕ) (row : ℕ → ℚ) (E : ℕ → Traj)
    (h : ∀ i < sc, (E i).alive = false) :
    step_all r rs sc row E = E := by
  unfold step_all
  rw [if_neg]
  intro hany
  obtain ⟨i, hi, halive⟩ := List.any_eq_true.mp hany
  rw [h i (List.mem_range.mp hi)] at halive
  cases halive

/-! ## The state invariant: energies are never negative, a scenario is alive
exactly when its energy is strictly positive -/

/-- Invariant of the ensemble state: every scenario's energy is nonnegative,
and its `alive` flag is set exactly when its energy is strictly positive
(so dead scenarios sit at exactly `0`). -/
def good_state (sc : ℕ) (E : ℕ → Traj) : Prop :=
  ∀ i < sc, 0 ≤ (E i).energy ∧ ((E i).alive = true ↔ 0 < (E i).energy)

theorem good_init_traj (p : Params) (d : Bool) (hE : 0 < p.initial_energy) :
    0 ≤ (init_traj p d).energy ∧
      ((init_traj p d).alive = true ↔ 0 < (init_traj p d).energy) := by
  unfold init_traj
  cases d
  · exact ⟨le_of_lt hE, by simp [hE]⟩
  · simp only [if_true]
    split
    · simp
    · rename_i h
      push_neg at h
      exact ⟨le_of_lt h, by simp [h]⟩

theorem good_step_traj (r rs n : ℚ) (s : Traj)
    (h0 : 0 ≤ s.energy) (hiff : s.alive = true ↔ 0 < s.energy) :
    0 ≤ (step_traj r rs n s).energy ∧
      ((step_traj r rs n s).alive = true ↔ 0 < (step_traj r rs n s).energy) := by
  by_cases ha : s.alive = true
  · unfold step_traj
    split
    · simp
    · rename_i h
      rw [not_and] at h
      have he : ¬ noisy_energy r rs n s ≤ 0 := h ha
      push_neg at he
      exact ⟨le_of_lt he, by simp [ha, he]⟩
  · have hdead : s.alive = false := Bool.eq_false_iff.mpr ha
    rw [step_traj_of_dead r rs n s hdead]
    exact ⟨h0, hiff⟩

theorem good_step_all (r rs : ℚ) (sc : ℕ) (row : ℕ → ℚ) (E : ℕ → Traj)
    (h : good_state sc E) : good_state sc (step_all r rs sc row E) := by
  intro i hi
  unfold step_all
  split
  · exact good_step_traj r rs (row i) (E i) (h i hi).1 (h i hi).2
  · exact h i hi

theorem good_states_after (p : Params) (m : ℕ → ℕ → ℚ) (d : Bool) (t : ℕ)
    (hE : 0 < p.initial_energy) :
    good_state p.scenarios (states_after p m d t) := by
  induction t with
  | zero =>
    intro i _
    exact good_init_traj p d hE
  | succ t ih =>
    rw [states_after_succ]
    exact good_step_all _ _ _ _ _ ih

/-! ## Metrics of a constant ensemble -/

theorem survival_rate_const (sc : ℕ) (s : Traj) (hsc : 1 ≤ sc) :
    survival_rate sc (fun _ => s) = if 0 < s.energy then 1 else 0 := by
  have hsc' : (sc : ℚ) ≠ 0 := Nat.cast_ne_zero.mpr (by omega)
  unfold survival_rate
  split
  · rename_i h
    rw [Finset.filter_true_of_mem (fun i _ => h), Finset.card_range]
    exact div_self hsc'
  · rename_i h
    rw [Finset.filter_false_of_mem (fun i _ => h), Finset.card_empty]
    simp

theorem avg_final_energy_const (sc : ℕ) (s : Traj) (hsc : 1 ≤ sc) :
    avg_final_energy sc (fun _ => s) = s.energy := by
  have hsc' : (sc : ℚ) ≠ 0 := Nat.cast_ne_zero.mpr (by omega)
  unfold avg_final_energy
  rw [Finset.sum_const, Finset.card_range, nsmul_eq_mul]
  exact mul_div_cancel_left₀ s.energy hsc'

/-! ## Dead scenarios never change -/

/-- One loop iteration fixes a scenario whose flag is down. -/
theorem step_all_dead_fix (r rs : ℚ) (sc : ℕ) (row : ℕ → ℚ) (E : ℕ → Traj)
    (i : ℕ) (h : (E i).alive = false) :
    step_all r rs sc row E i = E i := by
  unfold step_all
  split
  · exact step_traj_of_dead r rs (row i) (E i) h
  · rfl

/-- A scenario that is dead at time `t` sits at exactly `⟨0, false⟩` then. -/
theorem dead_state_eq (p : Params) (m : ℕ → ℕ → ℚ) (d : Bool) (i t : ℕ)
    (hE : 0 < p.initial_energy) (hi : i < p.scenarios)
    (hdead : (states_after p m d t i).alive = false) :
    states_after p m d t i = ⟨0, false⟩ := by
  obtain ⟨h0, hiff⟩ := good_states_after p m d t hE i hi
  have hne : ¬ 0 < (states_after p m d t i).energy := by
    rw [← hiff, hdead]
    simp
  have he : (states_after p m d t i).energy = 0 := le_antisymm (not_lt.mp hne) h0
  calc states_after p m d t i
      = ⟨(states_after p m d t i).energy, (states_after p m d t i).alive⟩ := rfl
    _ = ⟨0, false⟩ := by rw [he, hdead]

theorem init_traj_false (p : Params) :
    init_traj p false = ⟨p.initial_energy, true⟩ := rfl

theorem init_traj_true_of_nonpos (p : Params)
    (h : p.initial_energy - cost p ≤ 0) : init_traj p true = ⟨0, false⟩ := by
  simp [init_traj, h]

theorem init_traj_true_of_pos (p : Params)
    (h : ¬ p.initial_energy - cost p ≤ 0) :
    init_traj p true = ⟨p.initial_energy - cost p, true⟩ := by
  simp [init_traj, h]

/-- With `cost_frac = 1` the upfront cost drives every YES-run scenario to
`⟨0, false⟩` before the first step, and the state stays there forever. -/
theorem cost_one_states (p : Params) (m : ℕ → ℕ → ℚ) (hc : p.cost_frac = 1)
    (t : ℕ) : states_after p m true t = fun _ => ⟨0, false⟩ := by
  induction t with
  | zero =>
    funext i
    rw [states_after_zero]
    exact init_traj_true_of_nonpos p (by simp [cost, hc])
  | succ t ih =>
    rw [states_after_succ, ih, step_all_of_all_dead]
    intro i _
    rfl

/-- Claim C8: death is absorbing.  In each run, once scenario `i` has
`alive = false` it stays at energy exactly `0` with the flag down for every
later step: no decay, no noise, no later update touches it. -/
theorem claim_C8_death_absorbing (p : Params) (m : ℕ → ℕ → ℚ) (d : Bool)
    (i t t' : ℕ) (hE : 0 < p.initial_energy) (hi : i < p.scenarios)
    (htt : t ≤ t') (hdead : (states_after p m d t i).alive = false) :
    states_after p m d t' i = ⟨0, false⟩ := by
  induction t', htt using Nat.le_induction with
  | base => exact dead_state_eq p m d i t hE hi hdead
  | succ u hu ih =>
    have hd : (states_after p m d u i).alive = false := by rw [ih]
    rw [states_after_succ, step_all_dead_fix _ _ _ _ _ i hd, ih]

/-- Witness for C8 at `initial_energy = 100, cost_frac = 1, horizon = 5,
scenarios = 2`: scenario `0` of the YES-run is dead on entry to the loop and
still sits at `⟨0, false⟩` three steps later. -/
theorem claim_C8_death_absorbing_witness :
    states_after (Params.mk 100 1 0 0 5 2) (fun _ _ => 0) true 3 0 =
      ⟨0, false⟩ :=
  claim_C8_death_absorbing (Params.mk 100 1 0 0 5 2) (fun _ _ => 0) true 0 0 3
    (by norm_num) (by norm_num) (by norm_num)
    (by rw [states_after_zero, init_traj_true_of_nonpos _ (by norm_num [cost])])

/-- Claim C5: if `cost_frac = 1`, every YES-run trajectory is clamped to `0`
and marked dead before the first step, the loop never changes the state
again, and `simulate_decision` returns `survival_yes = 0` and `avg_yes = 0`. -/
theorem claim_C5_cost_one (p : Params) (m : ℕ → ℕ → ℚ)
    (hE : 0 < p.initial_energy) (hs : 1 ≤ p.scenarios) (hc : p.cost_frac = 1) :
    (∀ t, ∀ i < p.scenarios, states_after p m true t i = ⟨0, false⟩) ∧
    (simulate_decision p m).1 = 0 ∧ (simulate_decision p m).2.2.1 = 0 := by
  refine ⟨fun t i _ => by rw [cost_one_states p m hc], ?_, ?_⟩
  · show survival_rate p.scenarios (states_after p m true p.horizon) = 0
    rw [cost_one_states p m hc, survival_rate_const _ _ hs]
    simp
  · show avg_final_energy p.scenarios (states_after p m true p.horizon) = 0
    rw [cost_one_states p m hc, avg_final_energy_const _ _ hs]

/-- Witness for C5 at `initial_energy = 100, cost_frac = 1, benefit = 0.3,
risk = 0.7, horizon = 4, scenarios = 3`. -/
theorem claim_C5_cost_one_witness :
    (∀ t, ∀ i < (3:ℕ),
      states_after (Params.mk 100 1 (3/10) (7/10) 4 3) (fun _ _ => 1) true t i =
        ⟨0, false⟩) ∧
    (simulate_decision (Params.mk 100 1 (3/10) (7/10) 4 3) (fun _ _ => 1)).1 = 0 ∧
    (simulate_decision (Params.mk 100 1 (3/10) (7/10) 4 3) (fun _ _ => 1)).2.2.1 = 0 :=
  claim_C5_cost_one (Params.mk 100 1 (3/10) (7/10) 4 3) (fun _ _ => 1)
    (by norm_num) (by norm_num) rfl

/-- Claim C6: with `horizon = 0` no decay or noise step executes in either
run; the NO-run returns `survival_no = 1` and `avg_no = initial_energy`, and
the YES-run outcome is decided solely by the upfront cost subtraction,
clamped to `0` when `initial_energy - cost ≤ 0`. -/
theorem claim_C6_zero_horizon (p : Params) (m : ℕ → ℕ → ℚ)
    (hE : 0 < p.initial_energy) (hs : 1 ≤ p.scenarios) (hh : p.horizon = 0) :
    (∀ d, states_after p m d p.horizon = fun _ => init_traj p d) ∧
    run_scenarios p m false = (1, p.initial_energy) ∧
    (p.initial_energy - cost p ≤ 0 → run_scenarios p m true = (0, 0)) ∧
    (¬ p.initial_energy - cost p ≤ 0 →
      run_scenarios p m true = (1, p.initial_energy - cost p)) := by
  refine ⟨fun d => by rw [hh, states_after_zero], ?_, ?_, ?_⟩
  · show (survival_rate p.scenarios (states_after p m false p.horizon),
      avg_final_energy p.scenarios (states_after p m false p.horizon)) =
        (1, p.initial_energy)
    rw [hh, states_after_zero, init_traj_false, survival_rate_const _ _ hs,
      avg_final_energy_const _ _ hs]
    simp [hE]
  · intro hle
    show (survival_rate p.scenarios (states_after p m true p.horizon),
      avg_final_energy p.scenarios (states_after p m true p.horizon)) = (0, 0)
    rw [hh, states_after_zero, init_traj_true_of_nonpos p hle,
      survival_rate_const _ _ hs, avg_final_energy_const _ _ hs]
    simp
  · intro hgt
    show (survival_rate p.scenarios (states_after p m true p.horizon),
      avg_final_energy p.scenarios (states_after p m true p.horizon)) =
        (1, p.initial_energy - cost p)
    rw [hh, states_after_zero, init_traj_true_of_pos p hgt,
      survival_rate_const _ _ hs, avg_final_energy_const _ _ hs]
    push_neg at hgt
    simp [hgt]

/-- Witness for C6 at `initial_energy = 100, cost_frac = 0.4, horizon = 0,
scenarios = 2`: the NO-run returns `(1, 100)` and the YES-run `(1, 60)`. -/
theorem claim_C6_zero_horizon_witness :
    (∀ d, states_after (Params.mk 100 (4/10) 0 0 0 2) (fun _ _ => 0) d
        (Params.mk 100 (4/10) 0 0 0 2).horizon =
      fun _ => init_traj (Params.mk 100 (4/10) 0 0 0 2) d) ∧
    run_scenarios (Params.mk 100 (4/10) 0 0 0 2) (fun _ _ => 0) false = (1, 100) ∧
    ((100:ℚ) - cost (Params.mk 100 (4/10) 0 0 0 2) ≤ 0 →
      run_scenarios (Params.mk 100 (4/10) 0 0 0 2) (fun _ _ => 0) true = (0, 0)) ∧
    (¬ (100:ℚ) - cost (Params.mk 100 (4/10) 0 0 0 2) ≤ 0 →
      run_scenarios (Params.mk 100 (4/10) 0 0 0 2) (fun _ _ => 0) true =
        (1, 100 - cost (Params.mk 100 (4/10) 0 0 0 2))) :=
  claim_C6_zero_horizon (Params.mk 100 (4/10) 0 0 0 2) (fun _ _ => 0)
    (by norm_num) (by norm_num) rfl

/-! ## Runs without noise -/

/-- When the standard deviation is not positive, the whole evolution is
independent of the matrix contents (`if rand_std > 0` is never taken). -/
theorem step_all_noise_irrel (r rs : ℚ) (sc : ℕ) (row row' : ℕ → ℚ)
    (E : ℕ → Traj) (h : ¬ 0 < rs) :
    step_all r rs sc row E = step_all r rs sc row' E := by
  unfold step_all
  split
  · funext i
    exact step_traj_noise_irrel _ _ _ _ _ h
  · rfl

theorem states_after_noise_irrel (p : Params) (m m' : ℕ → ℕ → ℚ) (d : Bool)
    (h : ¬ 0 < rand_std p) (t : ℕ) :
    states_after p m d t = states_after p m' d t := by
  induction t with
  | zero => rfl
  | succ t ih =>
    rw [states_after_succ, states_after_succ, ih,
      step_all_noise_irrel _ _ _ (fun i => m i t) (fun i => m' i t) _ h]

/-- Without noise, all scenarios of one run evolve identically: the ensemble
state stays a constant function. -/
theorem states_after_const_of_no_noise (p : Params) (m : ℕ → ℕ → ℚ) (d : Bool)
    (h : ¬ 0 < rand_std p) (t : ℕ) (i j : ℕ) :
    states_after p m d t i = states_after p m d t j := by
  induction t with
  | zero => rfl
  | succ t ih =>
    rw [states_after_succ]
    unfold step_all
    split
    · show step_traj _ _ _ (states_after p m d t i) =
        step_traj _ _ _ (states_after p m d t j)
      rw [step_traj_noise_irrel _ _ (m i t) (m j t) _ h, ih]
    · exact ih

/-- The survival rate of an ensemble whose scenarios all agree is `0` or `1`. -/
theorem survival_rate_of_const (sc : ℕ) (E : ℕ → Traj) (hsc : 1 ≤ sc)
    (hconst : ∀ i j, E i = E j) :
    survival_rate sc E = 0 ∨ survival_rate sc E = 1 := by
  have hE : E = fun _ => E 0 := funext fun i => hconst i 0
  rw [hE, survival_rate_const sc (E 0) hsc]
  split
  · right; rfl
  · left; rfl

/-- Claim C7: if `risk_frac = 0` the noise standard deviation is `0`, the
noise step is skipped everywhere (the outputs do not depend on the matrix at
all), all scenarios of one run evolve identically, and both survival rates
are exactly `0` or exactly `1`. -/
theorem claim_C7_zero_risk (p : Params) (m m' : ℕ → ℕ → ℚ)
    (hE : 0 < p.initial_energy) (hs : 1 ≤ p.scenarios)
    (hr : p.risk_frac = 0) :
    rand_std p = 0 ∧
    (∀ d, run_scenarios p m d = run_scenarios p m' d) ∧
    (∀ d t i j, states_after p m d t i = states_after p m d t j) ∧
    ((simulate_decision p m).1 = 0 ∨ (simulate_decision p m).1 = 1) ∧
    ((simulate_decision p m).2.1 = 0 ∨ (simulate_decision p m).2.1 = 1) := by
  have hstd : rand_std p = 0 := by simp [rand_std, hr]
  have hnpos : ¬ 0 < rand_std p := by rw [hstd]; exact lt_irrefl 0
  refine ⟨hstd, ?_, ?_, ?_, ?_⟩
  · intro d
    unfold run_scenarios
    rw [states_after_noise_irrel p m m' d hnpos]
  · intro d t i j
    exact states_after_const_of_no_noise p m d hnpos t i j
  · exact survival_rate_of_const _ _ hs
      (states_after_const_of_no_noise p m true hnpos p.horizon)
  · exact survival_rate_of_const _ _ hs
      (states_after_const_of_no_noise p m false hnpos p.horizon)

/-- Witness for C7 at `initial_energy = 100, cost_frac = 0.2, benefit = 0.5,
risk_frac = 0, horizon = 3, scenarios = 2` with two different matrices. -/
theorem claim_C7_zero_risk_witness :
    rand_std (Params.mk 100 (2/10) (5/10) 0 3 2) = 0 ∧
    (∀ d, run_scenarios (Params.mk 100 (2/10) (5/10) 0 3 2) (fun _ _ => 5) d =
      run_scenarios (Params.mk 100 (2/10) (5/10) 0 3 2) (fun _ _ => -7) d) ∧
    (∀ d t i j,
      states_after (Params.mk 100 (2/10) (5/10) 0 3 2) (fun _ _ => 5) d t i =
        states_after (Params.mk 100 (2/10) (5/10) 0 3 2) (fun _ _ => 5) d t j) ∧
    ((simulate_decision (Params.mk 100 (2/10) (5/10) 0 3 2) (fun _ _ => 5)).1 = 0 ∨
      (simulate_decision (Params.mk 100 (2/10) (5/10) 0 3 2) (fun _ _ => 5)).1 = 1) ∧
    ((simulate_decision (Params.mk 100 (2/10) (5/10) 0 3 2) (fun _ _ => 5)).2.1 = 0 ∨
      (simulate_decision (Params.mk 100 (2/10) (5/10) 0 3 2) (fun _ _ => 5)).2.1 = 1) :=
  claim_C7_zero_risk (Params.mk 100 (2/10) (5/10) 0 3 2) (fun _ _ => 5)
    (fun _ _ => -7) (by norm_num) (by norm_num) rfl

theorem noisy_energy_alive_no_noise (r rs n e : ℚ) (h : ¬ 0 < rs) :
    noisy_energy r rs n ⟨e, true⟩ = e * (1 - r) := by
  simp [noisy_energy, decay_energy, h]

/-- One iteration seen by an alive scenario when there is no noise and decay
leaves its energy positive: pure multiplicative decay, still alive. -/
theorem step_traj_alive_no_noise (r rs n e : ℚ) (hrs : ¬ 0 < rs)
    (hpos : 0 < e * (1 - r)) :
    step_traj r rs n ⟨e, true⟩ = ⟨e * (1 - r), true⟩ := by
  have hne := noisy_energy_alive_no_noise r rs n e hrs
  unfold step_traj
  rw [hne, if_neg (fun hc => absurd hc.2 (not_le.mpr hpos))]

/-- Closed form of a run without noise whose initial state is alive: pure
multiplicative decay, every scenario identical and alive throughout. -/
theorem states_after_closed_no_noise (p : Params) (m : ℕ → ℕ → ℚ) (d : Bool)
    (hstd : ¬ 0 < rand_std p) (hs : 1 ≤ p.scenarios) (e0 r : ℚ)
    (he : 0 < e0) (hinit : init_traj p d = ⟨e0, true⟩)
    (hr : r = if d then effective_decay p else base_decay) (hr1 : 0 < 1 - r)
    (t : ℕ) :
    states_after p m d t = fun _ => ⟨e0 * (1 - r) ^ t, true⟩ := by
  induction t with
  | zero =>
    funext i
    rw [states_after_zero, hinit]
    simp
  | succ t ih =>
    have hpos : 0 < e0 * (1 - r) ^ t := mul_pos he (pow_pos hr1 t)
    rw [states_after_succ, ih]
    unfold step_all
    rw [if_pos (List.any_eq_true.mpr
      ⟨0, List.mem_range.mpr (by omega), rfl⟩)]
    funext i
    show step_traj _ (rand_std p) _ _ = _
    rw [← hr, step_traj_alive_no_noise _ _ _ _ hstd (mul_pos hpos hr1),
      mul_assoc, ← pow_succ]

theorem C9_effective_decay :
    effective_decay (Params.mk 100 (2/10) (5/10) 0 10 1) = 25/1000 := by
  rw [effective_decay, max_eq_right (by norm_num [base_decay])]
  norm_num [base_decay]

theorem C9_run_no (m : ℕ → ℕ → ℚ) :
    run_scenarios (Params.mk 100 (2/10) (5/10) 0 10 1) m false =
      (1, 100 * (19/20) ^ 10) := by
  have hstd : ¬ 0 < rand_std (Params.mk 100 (2/10) (5/10) 0 10 1) := by
    norm_num [rand_std]
  have h_no := states_after_closed_no_noise (Params.mk 100 (2/10) (5/10) 0 10 1)
    m false hstd (by norm_num) 100 base_decay (by norm_num) rfl rfl
    (by norm_num [base_decay]) 10
  show (survival_rate 1 (states_after _ m false 10),
    avg_final_energy 1 (states_after _ m false 10)) = _
  rw [h_no, survival_rate_const _ _ (by norm_num),
    avg_final_energy_const _ _ (by norm_num)]
  norm_num [base_decay]

theorem C9_run_yes (m : ℕ → ℕ → ℚ) :
    run_scenarios (Params.mk 100 (2/10) (5/10) 0 10 1) m true =
      (1, 80 * (39/40) ^ 10) := by
  have hstd : ¬ 0 < rand_std (Params.mk 100 (2/10) (5/10) 0 10 1) := by
    norm_num [rand_std]
  have h_yes := states_after_closed_no_noise (Params.mk 100 (2/10) (5/10) 0 10 1)
    m true hstd (by norm_num) 80 (25/1000) (by norm_num)
    (by
      rw [init_traj_true_of_pos _ (by norm_num [cost])]
      norm_num [cost])
    (by rw [if_pos rfl, C9_effective_decay]) (by norm_num) 10
  show (survival_rate 1 (states_after _ m true 10),
    avg_final_energy 1 (states_after _ m true 10)) = _
  rw [h_yes, survival_rate_const _ _ (by norm_num),
    avg_final_energy_const _ _ (by norm_num)]
  norm_num

/-- Claim C9 (amended value): at
`initial_energy = 100, cost_frac = 0.2, benefit_frac = 0.5, risk_frac = 0,
horizon = 10, scenarios = 1`, whatever the matrix holds, the NO-run ends at
`100 * 0.95 ^ 10 ≈ 59.87` and the YES-run at `80 * 0.975 ^ 10 ≈ 62.11`
(decay rate `0.025` after the cost leaves `80`), both survival rates are `1`,
and the decision rule reaches the tiebreak and returns YES since
`avg_yes ≥ avg_no`. -/
theorem claim_C9_concrete (m : ℕ → ℕ → ℚ) :
    run_scenarios (Params.mk 100 (2/10) (5/10) 0 10 1) m false =
      (1, 100 * (19/20) ^ 10) ∧
    run_scenarios (Params.mk 100 (2/10) (5/10) 0 10 1) m true =
      (1, 80 * (39/40) ^ 10) ∧
    effective_decay (Params.mk 100 (2/10) (5/10) 0 10 1) = 25/1000 ∧
    |100 * (19/20:ℚ) ^ 10 - 5987/100| < 1/100 ∧
    |80 * (39/40:ℚ) ^ 10 - 6211/100| < 1/100 ∧
    100 * (19/20:ℚ) ^ 10 ≤ 80 * (39/40) ^ 10 ∧
    gut_decision 1 1 (80 * (39/40) ^ 10) (100 * (19/20) ^ 10) = true := by
  have hle : 100 * (19/20:ℚ) ^ 10 ≤ 80 * (39/40) ^ 10 := by norm_num
  refine ⟨C9_run_no m, C9_run_yes m, C9_effective_decay,
    by rw [abs_lt]; constructor <;> norm_num,
    by rw [abs_lt]; constructor <;> norm_num, hle, ?_⟩
  rw [gut_decision, if_neg (by norm_num), if_neg (by norm_num), if_pos hle]

/-- The spec rounds the YES-run terminal energy to `≈ 62.19`, but
`80 * 0.975 ^ 10 = 62.106...`: the stated two-decimal value is off by more
than `0.01` (while the NO-run value `≈ 59.87` is accurate to `0.01`). -/
theorem claim_C9_counterexample :
    run_scenarios (Params.mk 100 (2/10) (5/10) 0 10 1) (fun _ _ => 0) true =
      (1, 80 * (39/40) ^ 10) ∧
    1/100 < |80 * (39/40:ℚ) ^ 10 - 6219/100| :=
  ⟨C9_run_yes (fun _ _ => 0), by rw [lt_abs]; right; norm_num⟩

/-! ## Shared noise, determinism and the decision rule -/

/-- Claim C1: the shared-noise invariant.  `simulate_decision` evaluates both
policies against the one matrix generated before either run, and at every
step `t` where scenario `i` is alive in a given run, the amount the noise
step adds to its energy is exactly the matrix entry `random_matrix[i][t]` —
the same entry in the YES-run and in the NO-run. -/
theorem claim_C1_shared_noise (p : Params) (m : ℕ → ℕ → ℚ) (i t : ℕ)
    (hi : i < p.scenarios) (ht : t < p.horizon) (hstd : 0 < rand_std p) :
    simulate_decision p m =
      ((run_scenarios p m true).1, (run_scenarios p m false).1,
        (run_scenarios p m true).2, (run_scenarios p m false).2) ∧
    ((states_after p m true t i).alive = true →
      noise_added p m true i t = m i t) ∧
    ((states_after p m false t i).alive = true →
      noise_added p m false i t = m i t) := by
  refine ⟨rfl, ?_, ?_⟩ <;> intro ha <;>
  · unfold noise_added noisy_energy
    rw [if_pos ha, if_pos hstd]
    ring

/-- Witness for C1 at `initial_energy = 100, cost_frac = 0.2, risk_frac = 1,
horizon = 1, scenarios = 1` with the all-ones matrix: scenario `0` is alive
at step `0` of both runs and both runs add the entry `1`. -/
theorem claim_C1_shared_noise_witness :
    simulate_decision (Params.mk 100 (2/10) 0 1 1 1) (fun _ _ => 1) =
      ((run_scenarios (Params.mk 100 (2/10) 0 1 1 1) (fun _ _ => 1) true).1,
        (run_scenarios (Params.mk 100 (2/10) 0 1 1 1) (fun _ _ => 1) false).1,
        (run_scenarios (Params.mk 100 (2/10) 0 1 1 1) (fun _ _ => 1) true).2,
        (run_scenarios (Params.mk 100 (2/10) 0 1 1 1) (fun _ _ => 1) false).2) ∧
    ((states_after (Params.mk 100 (2/10) 0 1 1 1) (fun _ _ => 1) true 0 0).alive = true →
      noise_added (Params.mk 100 (2/10) 0 1 1 1) (fun _ _ => 1) true 0 0 = 1) ∧
    ((states_after (Params.mk 100 (2/10) 0 1 1 1) (fun _ _ => 1) false 0 0).alive = true →
      noise_added (Params.mk 100 (2/10) 0 1 1 1) (fun _ _ => 1) false 0 0 = 1) :=
  claim_C1_shared_noise (Params.mk 100 (2/10) 0 1 1 1) (fun _ _ => 1) 0 0
    (by norm_num) (by norm_num) (by norm_num [rand_std])

/-- Claim C2: determinism.  The global generator state `st`/`st'` found on
entry is irrelevant: the seed is a function of the parameter tuple alone
(`sha_mod` models the SHA-256-mod-`2^32` of the canonical key), `np_seed`
replaces the generator state with it, and the four returned scalars coincide
for any two invocations with the same parameters. -/
theorem claim_C2_determinism {σ : Type} (np_seed : ℕ → σ) (next : σ → ℚ × σ)
    (sha_mod : ℚ → ℚ → ℚ → ℚ → ℕ → ℕ) (p : Params) (st st' : σ)
    (hE : 0 < p.initial_energy) (hs : 1 ≤ p.scenarios) :
    (simulate_full np_seed next sha_mod p st).1 =
      (simulate_full np_seed next sha_mod p st').1 := rfl

/-- Witness for C2: a concrete generator over `ℕ` states entered once with
state `0` and once with state `5` returns the same quadruple. -/
theorem claim_C2_determinism_witness :
    (simulate_full (id : ℕ → ℕ) (fun s => (1, s + 1)) (fun _ _ _ _ _ => 7)
      (Params.mk 100 (1/2) 0 1 2 3) 0).1 =
    (simulate_full (id : ℕ → ℕ) (fun s => (1, s + 1)) (fun _ _ _ _ _ => 7)
      (Params.mk 100 (1/2) 0 1 2 3) 5).1 :=
  claim_C2_determinism id (fun s => (1, s + 1)) (fun _ _ _ _ _ => 7)
    (Params.mk 100 (1/2) 0 1 2 3) 0 5 (by norm_num) (by norm_num)

/-! ## Output ranges -/

theorem survival_rate_nonneg (sc : ℕ) (E : ℕ → Traj) :
    0 ≤ survival_rate sc E :=
  div_nonneg (Nat.cast_nonneg _) (Nat.cast_nonneg _)

theorem survival_rate_le_one (sc : ℕ) (E : ℕ → Traj) (hsc : 1 ≤ sc) :
    survival_rate sc E ≤ 1 := by
  unfold survival_rate
  rw [div_le_one (by exact_mod_cast Nat.pos_of_ne_zero (by omega))]
  exact_mod_cast (Finset.card_filter_le _ _).trans_eq (Finset.card_range sc)

theorem avg_final_energy_nonneg (sc : ℕ) (E : ℕ → Traj)
    (hgood : good_state sc E) : 0 ≤ avg_final_energy sc E :=
  div_nonneg
    (Finset.sum_nonneg fun i hi => (hgood i (Finset.mem_range.mp hi)).1)
    (Nat.cast_nonneg _)

theorem survival_zero_iff_avg_zero (sc : ℕ) (E : ℕ → Traj) (hsc : 1 ≤ sc)
    (hgood : good_state sc E) :
    survival_rate sc E = 0 ↔ avg_final_energy sc E = 0 := by
  have hscQ : ((sc : ℚ)) ≠ 0 := Nat.cast_ne_zero.mpr (by omega)
  unfold survival_rate avg_final_energy
  rw [div_eq_zero_iff, div_eq_zero_iff]
  simp only [hscQ, or_false]
  rw [Nat.cast_eq_zero, Finset.card_eq_zero, Finset.filter_eq_empty_iff,
    Finset.sum_eq_zero_iff_of_nonneg
      (fun i hi => (hgood i (Finset.mem_range.mp hi)).1)]
  constructor
  · intro h i hi
    exact le_antisymm (not_lt.mp (h hi)) (hgood i (Finset.mem_range.mp hi)).1
  · intro h i hi hpos
    rw [h i hi] at hpos
    exact lt_irrefl 0 hpos

/-- Claim C10: ranges of the outputs.  After every step each scenario's
energy is nonnegative — dead ones exactly `0`, alive ones strictly
positive — and each run's survival rate lies in `[0, 1]`, its average final
energy is nonnegative, and the survival rate is `0` exactly when the average
final energy is `0`. -/
theorem claim_C10_output_ranges (p : Params) (m : ℕ → ℕ → ℚ) (d : Bool)
    (hE : 0 < p.initial_energy) (hs : 1 ≤ p.scenarios)
    (hr : 0 ≤ p.risk_frac) :
    (∀ t, ∀ i < p.scenarios, 0 ≤ (states_after p m d t i).energy ∧
      ((states_after p m d t i).alive = true ↔
        0 < (states_after p m d t i).energy)) ∧
    0 ≤ (run_scenarios p m d).1 ∧ (run_scenarios p m d).1 ≤ 1 ∧
    0 ≤ (run_scenarios p m d).2 ∧
    ((run_scenarios p m d).1 = 0 ↔ (run_scenarios p m d).2 = 0) := by
  have hgood := good_states_after p m d p.horizon hE
  exact ⟨fun t => good_states_after p m d t hE,
    survival_rate_nonneg _ _,
    survival_rate_le_one _ _ hs,
    avg_final_energy_nonneg _ _ hgood,
    survival_zero_iff_avg_zero _ _ hs hgood⟩

/-- Witness for C10 at `initial_energy = 100, cost_frac = 0.5, benefit = 0.2,
risk_frac = 1, horizon = 2, scenarios = 2`, YES-run, constant matrix `-3`. -/
theorem claim_C10_output_ranges_witness :
    (∀ t, ∀ i < (2:ℕ),
      0 ≤ (states_after (Params.mk 100 (1/2) (2/10) 1 2 2) (fun _ _ => -3) true t i).energy ∧
      ((states_after (Params.mk 100 (1/2) (2/10) 1 2 2) (fun _ _ => -3) true t i).alive = true ↔
        0 < (states_after (Params.mk 100 (1/2) (2/10) 1 2 2) (fun _ _ => -3) true t i).energy)) ∧
    0 ≤ (run_scenarios (Params.mk 100 (1/2) (2/10) 1 2 2) (fun _ _ => -3) true).1 ∧
    (run_scenarios (Params.mk 100 (1/2) (2/10) 1 2 2) (fun _ _ => -3) true).1 ≤ 1 ∧
    0 ≤ (run_scenarios (Params.mk 100 (1/2) (2/10) 1 2 2) (fun _ _ => -3) true).2 ∧
    ((run_scenarios (Params.mk 100 (1/2) (2/10) 1 2 2) (fun _ _ => -3) true).1 = 0 ↔
      (run_scenarios (Params.mk 100 (1/2) (2/10) 1 2 2) (fun _ _ => -3) true).2 = 0) :=
  claim_C10_output_ranges (Params.mk 100 (1/2) (2/10) 1 2 2) (fun _ _ => -3)
    true (by norm_num) (by norm_num) (by norm_num)

/-! ## Monotonicity in the cost fraction -/

theorem any_alive_of_lt (sc : ℕ) (E : ℕ → Traj) (i : ℕ) (hi : i < sc)
    (h : (E i).alive = true) :
    ((List.range sc).any fun j => (E j).alive) = true :=
  List.any_eq_true.mpr ⟨i, List.mem_range.mpr hi, h⟩

theorem all_dead_of_not_any (sc : ℕ) (E : ℕ → Traj)
    (h : ¬ ((List.range sc).any fun j => (E j).alive) = true) :
    ∀ i < sc, (E i).alive = false := by
  intro i hi
  cases hA : (E i).alive
  · rfl
  · exact absurd (any_alive_of_lt sc E i hi hA) h

theorem energy_zero_of_dead (s : Traj) (h0 : 0 ≤ s.energy)
    (hiff : s.alive = true ↔ 0 < s.energy) (hd : s.alive = false) :
    s.energy = 0 := by
  refine le_antisymm (not_lt.mp ?_) h0
  rw [← hiff, hd]
  simp

/-- The energy update applied to an alive scenario with current energy `e`:
decay, plus the matrix entry `n` when the standard deviation is positive. -/
def next_energy (r rs n e : ℚ) : ℚ :=
  if 0 < rs then e * (1 - r) + n else e * (1 - r)

theorem noisy_energy_alive (r rs n : ℚ) (s : Traj) (h : s.alive = true) :
    noisy_energy r rs n s = next_energy r rs n s.energy := by
  simp [noisy_energy, decay_energy, next_energy, h]

theorem step_traj_alive (r rs n : ℚ) (s : Traj) (h : s.alive = true) :
    step_traj r rs n s =
      if noisy_energy r rs n s ≤ 0 then ⟨0, false⟩
      else ⟨noisy_energy r rs n s, true⟩ := by
  simp [step_traj, h]

theorem next_energy_mono (r rs n e1 e2 : ℚ) (hr : 0 ≤ 1 - r) (he : e2 ≤ e1) :
    next_energy r rs n e2 ≤ next_energy r rs n e1 := by
  unfold next_energy
  split
  · exact add_le_add_right (mul_le_mul_of_nonneg_right he hr) n
  · exact mul_le_mul_of_nonneg_right he hr

/-- One loop iteration preserves the scenariowise ordering of two runs that
share the decay rate, the standard deviation and the noise row. -/
theorem mono_step_all (r rs : ℚ) (sc : ℕ) (row : ℕ → ℚ) (E1 E2 : ℕ → Traj)
    (hr : 0 ≤ 1 - r) (g1 : good_state sc E1) (g2 : good_state sc E2)
    (hle : ∀ i < sc, (E2 i).energy ≤ (E1 i).energy) :
    ∀ i < sc,
      (step_all r rs sc row E2 i).energy ≤ (step_all r rs sc row E1 i).energy := by
  intro i hi
  unfold step_all
  by_cases h2 : ((List.range sc).any fun j => (E2 j).alive) = true
  · rw [if_pos h2]
    obtain ⟨j, hj, haj⟩ := List.any_eq_true.mp h2
    have hj' := List.mem_range.mp hj
    have haj1 : (E1 j).alive = true := by
      rw [(g1 j hj').2]
      have hpos := (g2 j hj').2.mp haj
      linarith [hle j hj']
    rw [if_pos (any_alive_of_lt sc E1 j hj' haj1)]
    by_cases ha2 : (E2 i).alive = true
    · have ha1 : (E1 i).alive = true := by
        rw [(g1 i hi).2]
        have hpos := (g2 i hi).2.mp ha2
        linarith [hle i hi]
      rw [step_traj_alive _ _ _ _ ha1, step_traj_alive _ _ _ _ ha2,
        noisy_energy_alive _ _ _ _ ha1, noisy_energy_alive _ _ _ _ ha2]
      have hne := next_energy_mono r rs (row i) (E1 i).energy (E2 i).energy hr
        (hle i hi)
      split_ifs with hc2 hc1 hc1
      · exact le_refl _
      · push_neg at hc1
        exact le_of_lt hc1
      · linarith
      · exact hne
    · have hd2 : (E2 i).alive = false := by
        cases hA : (E2 i).alive
        · rfl
        · exact absurd hA ha2
      rw [step_traj_of_dead _ _ _ _ hd2,
        energy_zero_of_dead _ (g2 i hi).1 (g2 i hi).2 hd2]
      exact (good_step_traj r rs (row i) (E1 i) (g1 i hi).1 (g1 i hi).2).1
  · rw [if_neg h2]
    have hd2 := all_dead_of_not_any sc E2 h2 i hi
    rw [energy_zero_of_dead _ (g2 i hi).1 (g2 i hi).2 hd2]
    split
    · exact (good_step_traj r rs (row i) (E1 i) (g1 i hi).1 (g1 i hi).2).1
    · exact (g1 i hi).1

/-- The upfront cost orders the initial YES-run states: a larger cost
fraction leaves no more energy. -/
theorem mono_init_yes (e c1 c2 b rk : ℚ) (hh sc : ℕ) (hE : 0 < e)
    (hc : c1 ≤ c2) :
    (init_traj (Params.mk e c2 b rk hh sc) true).energy ≤
      (init_traj (Params.mk e c1 b rk hh sc) true).energy := by
  have hcc : e - e * c2 ≤ e - e * c1 := by nlinarith
  by_cases h1 : e - e * c1 ≤ 0
  · rw [init_traj_true_of_nonpos (Params.mk e c2 b rk hh sc) (le_trans hcc h1),
      init_traj_true_of_nonpos (Params.mk e c1 b rk hh sc) h1]
  · by_cases h2 : e - e * c2 ≤ 0
    · rw [init_traj_true_of_nonpos (Params.mk e c2 b rk hh sc) h2,
        init_traj_true_of_pos (Params.mk e c1 b rk hh sc) h1]
      show (0:ℚ) ≤ e - e * c1
      push_neg at h1
      exact le_of_lt h1
    · rw [init_traj_true_of_pos (Params.mk e c2 b rk hh sc) h2,
        init_traj_true_of_pos (Params.mk e c1 b rk hh sc) h1]
      exact hcc

/-- Scenariowise ordering of the two YES-runs throughout the horizon. -/
theorem mono_states_after_yes (e c1 c2 b rk : ℚ) (hh sc : ℕ)
    (m : ℕ → ℕ → ℚ) (hE : 0 < e) (hc : c1 ≤ c2)
    (hd : effective_decay (Params.mk e c1 b rk hh sc) ≤ 1) (t : ℕ) :
    ∀ i < sc,
      (states_after (Params.mk e c2 b rk hh sc) m true t i).energy ≤
        (states_after (Params.mk e c1 b rk hh sc) m true t i).energy := by
  induction t with
  | zero =>
    intro i _
    rw [states_after_zero, states_after_zero]
    exact mono_init_yes e c1 c2 b rk hh sc hE hc
  | succ t ih =>
    intro i hi
    rw [states_after_succ, states_after_succ]
    exact mono_step_all (effective_decay (Params.mk e c1 b rk hh sc))
      (rand_std (Params.mk e c1 b rk hh sc)) sc (fun j => m j t)
      (states_after (Params.mk e c1 b rk hh sc) m true t)
      (states_after (Params.mk e c2 b rk hh sc) m true t)
      (by linarith)
      (good_states_after (Params.mk e c1 b rk hh sc) m true t hE)
      (good_states_after (Params.mk e c2 b rk hh sc) m true t hE)
      ih i hi

/-- Claim C4 (amended): with the two invocations evaluated against the same
noise matrix — which the program guarantees only when `risk_frac = 0`, since
the seed key contains `cost_frac` — and with `benefit_frac` in its documented
domain (the contract expects the three fractions in `[0,1]`; only the lower
bound is needed), increasing `cost_frac` never increases `survival_yes` or
`avg_yes`. -/
theorem claim_C4_cost_monotone (e c1 c2 b rk : ℚ) (hh sc : ℕ)
    (m : ℕ → ℕ → ℚ) (hE : 0 < e) (hs : 1 ≤ sc) (hc : c1 ≤ c2)
    (hb : 0 ≤ b) :
    (run_scenarios (Params.mk e c2 b rk hh sc) m true).1 ≤
      (run_scenarios (Params.mk e c1 b rk hh sc) m true).1 ∧
    (run_scenarios (Params.mk e c2 b rk hh sc) m true).2 ≤
      (run_scenarios (Params.mk e c1 b rk hh sc) m true).2 := by
  have hd : effective_decay (Params.mk e c1 b rk hh sc) ≤ 1 := by
    show max 0 (base_decay * (1 - b)) ≤ 1
    have hbd : base_decay = 1/20 := by norm_num [base_decay]
    rw [hbd]
    refine max_le (by norm_num) (by nlinarith)
  have hscQ : (0:ℚ) < (sc : ℚ) := by exact_mod_cast Nat.pos_of_ne_zero (by omega)
  have hmono := mono_states_after_yes e c1 c2 b rk hh sc m hE hc hd hh
  constructor
  · show survival_rate sc (states_after (Params.mk e c2 b rk hh sc) m true hh) ≤
      survival_rate sc (states_after (Params.mk e c1 b rk hh sc) m true hh)
    unfold survival_rate
    rw [div_le_div_iff_of_pos_right hscQ]
    have hsub : (Finset.range sc).filter
        (fun i => 0 < (states_after (Params.mk e c2 b rk hh sc) m true hh i).energy) ⊆
      (Finset.range sc).filter
        (fun i => 0 < (states_after (Params.mk e c1 b rk hh sc) m true hh i).energy) := by
      intro x hx
      rw [Finset.mem_filter] at hx ⊢
      exact ⟨hx.1,
        lt_of_lt_of_le hx.2 (hmono x (Finset.mem_range.mp hx.1))⟩
    exact_mod_cast Finset.card_le_card hsub
  · show avg_final_energy sc (states_after (Params.mk e c2 b rk hh sc) m true hh) ≤
      avg_final_energy sc (states_after (Params.mk e c1 b rk hh sc) m true hh)
    unfold avg_final_energy
    rw [div_le_div_iff_of_pos_right hscQ]
    exact Finset.sum_le_sum fun i hi => hmono i (Finset.mem_range.mp hi)

/-- Witness for the amended C4 at
`initial_energy = 100, benefit = 0, risk = 0, horizon = 1, scenarios = 1`,
`cost_frac` raised from `0` to `1/2`, shared zero matrix. -/
theorem claim_C4_cost_monotone_witness :
    (run_scenarios (Params.mk 100 (1/2) 0 0 1 1) (fun _ _ => 0) true).1 ≤
      (run_scenarios (Params.mk 100 0 0 0 1 1) (fun _ _ => 0) true).1 ∧
    (run_scenarios (Params.mk 100 (1/2) 0 0 1 1) (fun _ _ => 0) true).2 ≤
      (run_scenarios (Params.mk 100 0 0 0 1 1) (fun _ _ => 0) true).2 :=
  claim_C4_cost_monotone 100 0 (1/2) 0 0 1 1 (fun _ _ => 0) (by norm_num)
    (by norm_num) (by norm_num) (by norm_num)

/-- The claim as stated fails on the reference pipeline, because the seed key
(line 23 of `first_gut.py`) contains `cost_frac`, so the two invocations draw
different noise matrices.  Failing input: `initial_energy = 100.0`,
`benefit_frac = 0.0`, `risk_frac = 1.0`, `horizon = 1`, `scenarios = 1`,
`cost_frac` raised from `0.94` to `0.95`.

For `cost_frac = 0.94` the seed key is the string `100.0-0.94-0.0-1.0-1`,
whose SHA-256 digest modulo `2^32` is `798616909`; seeding numpy's legacy
MT19937 with it and drawing the `1 x 1` matrix
(`rk_gauss` polar method, first return `f*x2`, scaled by `rand_std = 10.0`)
gives exactly the double `-1825085906855727 / 2^47 = -12.968015332544717`.
For `cost_frac = 0.95` the key is `100.0-0.95-0.0-1.0-1`, the seed is
`1275956454`, and the entry is exactly
`2469189034185293 / 2^48 = 8.772321657294288`.  (Pipeline cross-checked
against the classic first draws of that generator: seed `0` gives
`1.764052345967664` and seed `42` gives `0.4967141530112327`.)

The `cost_frac = 0.94` YES-run starts at `6`, decays to `5.7` and dies at
step `0` (`5.7 - 12.968... <= 0`, margin `7.27`), so
`survival_yes = avg_yes = 0`; the `cost_frac = 0.95` YES-run starts at `5`,
decays to `4.75` and survives (`4.75 + 8.772... = 13.52... > 0`, margin
`13.5` — both margins dwarf any floating-point rounding).  Raising the cost
thus raises `survival_yes` from `0` to `1` and `avg_yes` from `0` to
`13.52...`. -/
theorem claim_C4_counterexample :
    (94/100 : ℚ) ≤ 95/100 ∧
    ¬ ((simulate_decision (Params.mk 100 (95/100) 0 1 1 1)
          (fun _ _ => 2469189034185293 / 2 ^ 48)).1 ≤
        (simulate_decision (Params.mk 100 (94/100) 0 1 1 1)
          (fun _ _ => -1825085906855727 / 2 ^ 47)).1) ∧
    ¬ ((simulate_decision (Params.mk 100 (95/100) 0 1 1 1)
          (fun _ _ => 2469189034185293 / 2 ^ 48)).2.2.1 ≤
        (simulate_decision (Params.mk 100 (94/100) 0 1 1 1)
          (fun _ _ => -1825085906855727 / 2 ^ 47)).2.2.1) := by
  have hed : ∀ c : ℚ, effective_decay (Params.mk 100 c 0 1 1 1) = 1/20 := by
    intro c
    rw [effective_decay, max_eq_right (by norm_num [base_decay])]
    norm_num [base_decay]
  refine ⟨by norm_num, ?_, ?_⟩ <;>
    norm_num [simulate_decision, run_scenarios, states_after,
      step_all, step_traj, noisy_energy, decay_energy,
      init_traj, cost, hed, base_decay, rand_std, survival_rate,
      avg_final_energy, List.range_succ, Finset.range_one,
      Finset.filter_singleton, Finset.sum_singleton]

/-- Claim C3: the caller-level decision rule is a strict three-branch
decision with exactly two outcomes: YES when
`surv_yes - surv_no > 0.01`, else NO when `surv_no - surv_yes > 0.01`, else
the tiebreak recommends YES exactly when `avg_yes ≥ avg_no`. -/
theorem claim_C3_decision_rule (sy sn ay an : ℚ) :
    (gut_decision sy sn ay an = true ∨ gut_decision sy sn ay an = false) ∧
    (gut_decision sy sn ay an = true ↔
      0.01 < sy - sn ∨ (|sy - sn| ≤ 0.01 ∧ an ≤ ay)) := by
  refine ⟨Bool.eq_false_or_eq_true _, ?_⟩
  unfold gut_decision
  split_ifs with h1 h2 h3
  · exact iff_of_true rfl (Or.inl h1)
  · refine iff_of_false (by simp) ?_
    rintro (h | ⟨habs, _⟩)
    · exact h1 h
    · have := (abs_le.mp habs).1
      rw [gt_iff_lt] at h2
      linarith
  · refine iff_of_true rfl (Or.inr ⟨abs_le.mpr ⟨?_, ?_⟩, h3⟩)
    · rw [gt_iff_lt, not_lt] at h2
      linarith
    · rw [gt_iff_lt, not_lt] at h1
      linarith
  · refine iff_of_false (by simp) ?_
    rintro (h | ⟨_, hle⟩)
    · exact h1 h
    · rw [ge_iff_le, not_le] at h3
      linarith
